import Mathlib

/-!
# Verification of the civic-complaint retrieval-fusion-and-decision engine

Shallow embedding of the core of the Qdrant-powered civic complaint
assistant (files `src/core/hybrid.py`, `src/core/agent_v2.py`,
`src/core/recommend.py`, `src/core/memory.py`, `src/core/response.py`).

Modelling conventions:
* Python floats are modelled as `ℚ` (the constants involved are decimal
  literals, and every comparison the code performs on them is exact).
* Python `str` is `String`; `None`-able values are `Option`s.
* Python dicts that the code iterates over are modelled as association
  lists in insertion order, with in-place update on existing keys and
  append for new keys (CPython dict semantics).
* Code that can raise is modelled with `Except String`.
* Timestamps are rationals measured in days.
-/

set_option maxHeartbeats 1000000

namespace Civic

/-- A retrieved record, as the dicts produced by `qdrant_dense_search` /
`BM25Index.search` in `src/core/hybrid.py`: an id, the text, the payload
(kept abstract as a string tag), and the optional score fields that the
various stages attach. -/
structure Doc where
  id : ℕ
  text : String
  payload : String
  score : Option ℚ := none
  bm25_score : Option ℚ := none
  rrf_score : Option ℚ := none
deriving DecidableEq, Inhabited, Repr

/-- Dictionary lookup on an insertion-ordered association list (CPython
dicts have unique keys, so the first match is the binding). -/
def alookup {κ β : Type} [DecidableEq κ] (k : κ) : List (κ × β) → Option β
  | [] => none
  | (j, b) :: l => if k = j then some b else alookup k l

/-! ## Stable descending sort

Python `list.sort(key=…, reverse=True)` and `sorted(…, reverse=True)` are
stable; the stable sort of a list by a key is unique, so we model them by
insertion sort with the reflexive descending relation (equal keys keep
their original relative order). -/

/-- Stable sort, descending by `key` (model of `sort(key=…, reverse=True)`). -/
def sortDescBy {α : Type} (key : α → ℚ) (l : List α) : List α :=
  l.insertionSort (fun a b => key b ≤ key a)

/-! ## `src/core/response.py` -/

/-- `snippet(txt, n=240)`. -/
def snippet (txt : String) (n : ℕ := 240) : String :=
  if txt = "" then "" else
    (txt.take n) ++ (if n < txt.length then "..." else "")

/-- `confidence_from_score` (`src/core/response.py`, lines 23-30). -/
def confidence_from_score (score : Option ℚ) : String :=
  match score with
  | none => "low"
  | some s => if s ≥ 35/100 then "high" else if s ≥ 25/100 then "medium" else "low"

/-- One line of the escalation ladder: the Python f-string `f"Day {d}: …"`. -/
def mkStep (d : ℕ) (txt : String) : String := s!"Day {d}: {txt}"

/-- `escalation_steps(sla_days, waited_days=None)` — the second (overriding)
definition in `src/core/response.py`, lines 35-44.  Day counts are `ℕ`. -/
def escalation_steps (sla_days : ℕ) (waited_days : Option ℕ) : List String :=
  let waited := waited_days.getD sla_days
  [ mkStep 0 "Submit via recommended channel and save screenshot/ticket.",
    mkStep (min 1 waited) "If no acknowledgement, re-submit with photo + landmark.",
    mkStep (min sla_days waited)
      s!"If no resolution within SLA ({sla_days} days), escalate to ward/zone officer.",
    mkStep (min (sla_days+2) (waited+2))
      "If still unresolved, email commissioner/municipal grievance cell with prior ticket proof.",
    mkStep (min (sla_days+5) (waited+5))
      "File on state grievance portal / RTI if applicable (attach evidence)." ]

/-- The trigger day of each of the five steps, from the spec: step `n`
fires at `min(offset_n, waited + bonus_n)` for offsets
`(0, 1, sla, sla+2, sla+5)` and bonuses `(0, 0, 0, 2, 5)`. -/
def escalation_days (sla waited : ℕ) : List ℕ :=
  [0, min 1 waited, min sla waited, min (sla+2) (waited+2), min (sla+5) (waited+5)]

/-- The fixed message texts of the ladder (f-string remainders). -/
def step_texts (sla : ℕ) : List String :=
  [ "Submit via recommended channel and save screenshot/ticket.",
    "If no acknowledgement, re-submit with photo + landmark.",
    s!"If no resolution within SLA ({sla} days), escalate to ward/zone officer.",
    "If still unresolved, email commissioner/municipal grievance cell with prior ticket proof.",
    "File on state grievance portal / RTI if applicable (attach evidence)." ]

/-! ## `src/core/recommend.py` -/

/-- `score_channel(channel, urgency, portal_ok, user_pref)`
(`src/core/recommend.py`, lines 16-28).  `0.6 = 3/5`, `1.2 = 6/5`,
`0.5 = 1/2`, `0.3 = 3/10`, `2.5 = 5/2`, `1.5 = 3/2`.  The Python guard
`if user_pref and channel == user_pref` is falsy for `None` and for the
empty string. -/
def score_channel (channel urgency : String) (portal_ok : Bool) (user_pref : Option String) : ℚ :=
  let s : ℚ := 0
  let s := if urgency = "high" then
             s + (if channel = "helpline" ∨ channel = "email" then 2 else 3/5)
           else if urgency = "medium" then
             s + (if channel = "app" ∨ channel = "portal" then 6/5 else 1/2)
           else
             s + (if channel = "portal" ∨ channel = "app" then 1 else 3/10)
  let s := if channel = "portal" ∧ portal_ok = false then s - 5/2 else s
  match user_pref with
  | some p => if p ≠ "" ∧ channel = p then s + 3/2 else s
  | none => s

/-- Result of `recommend_channel` (`src/core/recommend.py`, lines 30-38):
best, backup, and the trace dict `{"scored": …, "portal_ok": …}`. -/
structure RecommendResult where
  best : Option String
  backup : Option String
  scored : List (String × ℚ)
  portal_ok : Bool
deriving DecidableEq, Repr

/-- `recommend_channel` with the channel list taken from
`kb_payload.get("channel_type", [])` and the portal liveness already
resolved (the network lookup `get_channel_status` is outside the model). -/
def recommend_channel (channels : List String) (urgency : String)
    (portal_ok : Bool) (user_pref : Option String) : RecommendResult :=
  let scored := channels.map (fun ch => (ch, score_channel ch urgency portal_ok user_pref))
  let scored := sortDescBy (fun x => x.2) scored
  { best := (scored.head?).map (fun x => x.1)
    backup := ((scored.drop 1).head?).map (fun x => x.1)
    scored := scored
    portal_ok := portal_ok }

/-- The scoring rule exactly as the spec words it (claim side, for
comparison with `score_channel`). -/
def spec_channel_score (c urgency : String) (portal_live : Bool) (pref : Option String) : ℚ :=
  (0 : ℚ)
  + (if urgency = "high" then (if c = "helpline" ∨ c = "email" then 2 else 3/5)
     else if urgency = "medium" then (if c = "app" ∨ c = "portal" then 6/5 else 1/2)
     else (if c = "portal" ∨ c = "app" then 1 else 3/10))
  - (if c = "portal" ∧ portal_live = false then 5/2 else 0)
  + (if pref = some c then 3/2 else 0)

/-! ## `src/core/memory.py` -/

/-- State of the `last_updated` payload field as `memory_decay_cleanup`
sees it: absent or falsy (`if not lu: continue`), present but failing
`datetime.fromisoformat` (`except: continue`), or a parsed timestamp
(rational days). -/
inductive TsField where
  | missing
  | invalid
  | valid (t : ℚ)
deriving DecidableEq, Repr

/-- State of the `ttl_days` payload field: absent (the `.get` default
string "180" parses to 180), present but failing `int(…)`
(`except: ttl = 180`), or a parsed integer. -/
inductive TtlField where
  | missing
  | invalid
  | valid (n : ℤ)
deriving DecidableEq, Repr

/-- The TTL value `memory_decay_cleanup` ends up using
(`src/core/memory.py`, lines 60-63). -/
def parsed_ttl : TtlField → ℤ
  | .missing => 180
  | .invalid => 180
  | .valid n => n

/-- The per-record deletion test of `memory_decay_cleanup`
(`src/core/memory.py`, lines 59-74): records with a falsy or unparseable
`last_updated` are skipped; otherwise delete when
`ts < now - timedelta(days=ttl)`. -/
def should_delete (now : ℚ) (lu : TsField) (ttl : TtlField) : Bool :=
  match lu with
  | .valid ts => decide (ts < now - (parsed_ttl ttl : ℚ))
  | _ => false

/-- A stored memory record, reduced to the fields the cleanup inspects. -/
structure MemRecord where
  id : ℕ
  last_updated : TsField
  ttl_days : TtlField
deriving DecidableEq, Repr

/-- `memory_decay_cleanup`: the ids collected into `to_delete` and passed
to `client.delete` (`src/core/memory.py`, lines 51-78). -/
def memory_decay_cleanup (records : List MemRecord) (now : ℚ) : List ℕ :=
  (records.filter (fun r => should_delete now r.last_updated r.ttl_days)).map (fun r => r.id)

/-- The single preference record for a user, reduced to the payload
fields `reinforce_preference` reads and writes. -/
structure PrefRecord where
  pref_channel : String
  pref_weight : ℤ
  last_updated : ℚ
deriving DecidableEq, Repr

/-- `reinforce_preference(user_id, channel)` (`src/core/memory.py`, lines
80-103) acting on the user's preference record (`none` = no record yet;
creation via `memory_upsert` stamps `last_updated = now` and weight 1). -/
def reinforce_preference (pref : Option PrefRecord) (channel : String) (now : ℚ) : PrefRecord :=
  match pref with
  | none => { pref_channel := channel, pref_weight := 1, last_updated := now }
  | some p => { pref_channel := channel, pref_weight := p.pref_weight + 1, last_updated := now }

/-! ## `src/core/agent_v2.py`: slot filling and the gate -/

/-- `provided.get(f)`: `none` when the key is absent or its value is
`None`. -/
def dict_get (provided : List (String × Option String)) (f : String) : Option String :=
  match alookup f provided with
  | none => none
  | some v => v

/-- Python `not v.strip()`: true iff every character is whitespace
(computed on the character list so that it evaluates by `decide`). -/
def is_blank (s : String) : Bool := s.data.all (fun c => c.isWhitespace)

/-- Python `f.endswith("_optional")` (character-list implementation). -/
def ends_with (s suffix : String) : Bool := suffix.data.isSuffixOf s.data

/-- `_missing_fields(required, provided)` (`src/core/agent_v2.py`, lines
21-31), in loop form. -/
def missing_fields : List String → List (String × Option String) → List String
  | [], _ => []
  | f :: fs, provided =>
    if ends_with f "_optional" then missing_fields fs provided
    else match dict_get provided f with
      | none => f :: missing_fields fs provided
      | some v =>
        if is_blank v then f :: missing_fields fs provided
        else missing_fields fs provided

/-- The question map of `_questions_for` (`src/core/agent_v2.py`, lines 33-42). -/
def qmap : List (String × String) :=
  [ ("location", "What is the exact location (street/area) of the issue?"),
    ("landmark", "Any nearby landmark (shop/school/bus stop) to help locate it?"),
    ("date_time", "When did you first notice it (date/time)?"),
    ("days_missed", "How many days has the issue continued (e.g., garbage not collected for N days)?"),
    ("photo", "Can you upload a clear photo of the issue?"),
    ("pole_number_optional", "If visible, what is the pole number?") ]

/-- `_questions_for(fields)`. -/
def questions_for (fields : List String) : List String :=
  fields.map (fun f => (alookup f qmap).getD ("Please provide: " ++ f))

/-- Shape of `assist_new`'s result as far as the slot-filling gate is
concerned: either the information-request dict (lines 160-173) or the
final decision dict (lines 232-244). -/
inductive AssistOutcome where
  | needMoreInfo (missingFields questions : List String)
  | finalDecision
deriving DecidableEq, Repr

/-- The slot-filling gate of `assist_new` (`src/core/agent_v2.py`, lines
158-173): `if missing and not auto_submit: return {need_more_info: True, …}`,
otherwise fall through to the final decision. -/
def assist_gate (required : List String) (provided : List (String × Option String))
    (auto_submit : Bool) : AssistOutcome :=
  let missing := missing_fields required provided
  if missing ≠ [] ∧ auto_submit = false then
    .needMoreInfo missing (questions_for missing)
  else
    .finalDecision

/-- Claim-side predicate: a required name counts as missing when it is
not suffixed `"_optional"` and its provided value is null or blank. -/
def spec_missing (provided : List (String × Option String)) (f : String) : Bool :=
  (!ends_with f "_optional") &&
    (match dict_get provided f with
     | none => true
     | some v => is_blank v)

/-- Does `needle` occur as a contiguous substring of `hay`? (Used only to
state "the third step mentions 7 days".) -/
def contains_seq (needle : List Char) : List Char → Bool
  | [] => needle.isPrefixOf []
  | c :: rest => needle.isPrefixOf (c :: rest) || contains_seq needle rest

/-! ## `rrf_fuse` (`src/core/hybrid.py`, lines 38-48) -/

/-- `enumerate(l, start=n)`. -/
def enumFrom {α : Type} (n : ℕ) : List α → List (ℕ × α)
  | [] => []
  | x :: xs => (n, x) :: enumFrom (n + 1) xs

/-- The flattened iteration of `rrf_fuse`'s two nested loops
(`for l in lists: for rank, d in enumerate(l, start=1)`): for each
record, the contribution `1.0 / (k + rank)` paired with the record, in
visit order. -/
def rrf_stream (k : ℚ) (lists : List (List Doc)) : List (ℚ × Doc) :=
  (lists.map (fun l => (enumFrom 1 l).map (fun p => (1 / (k + (p.1 : ℚ)), p.2)))).flatten

/-- One loop-body step on the merged `scores`/`items` state: an
association list in dict insertion order from doc id to the accumulated
score and the most recently stored record.  `items[doc_id] = d`
overwrites in place, `scores[doc_id] = scores.get(doc_id, 0.0) + c`
accumulates; a fresh id is appended (CPython dict order). -/
def upd_entries (st : List (ℕ × ℚ × Doc)) (c : ℚ) (d : Doc) : List (ℕ × ℚ × Doc) :=
  if (alookup d.id st).isSome then
    st.map (fun e => if e.1 = d.id then (e.1, e.2.1 + c, d) else e)
  else
    st ++ [(d.id, c, d)]

/-- The whole accumulation loop of `rrf_fuse`. -/
def run_entries (st : List (ℕ × ℚ × Doc)) : List (ℚ × Doc) → List (ℕ × ℚ × Doc)
  | [] => st
  | (c, d) :: ps => run_entries (upd_entries st c d) ps

/-- `dict(items[i], rrf_score=scores[i])`: copy the stored record and
attach the fused score under the `rrf_score` key. -/
def fused_of_entry (e : ℕ × ℚ × Doc) : Doc := { e.2.2 with rrf_score := some e.2.1 }

/-- The sort key `x["rrf_score"]` (always present on fused records). -/
def rrf_key (d : Doc) : ℚ := (d.rrf_score).getD 0

/-- `rrf_fuse(lists, k=60, topk=10)`. -/
def rrf_fuse (lists : List (List Doc)) (k : ℚ := 60) (topk : ℕ := 10) : List Doc :=
  let entries := run_entries [] (rrf_stream k lists)
  let fused := entries.map fused_of_entry
  (sortDescBy rrf_key fused).take topk

/-- Claim side: the 1-based rank of the record with id `i` in a ranked
list (`none` when absent). -/
def rank_of (i : ℕ) : List Doc → Option ℕ
  | [] => none
  | d :: ds => if d.id = i then some 1 else (rank_of i ds).map (fun r => r + 1)

/-- Claim side: the fused score of id `i` — the sum over the lists
containing it of `1/(k + rank)` (absent lists contribute 0). -/
def spec_score (lists : List (List Doc)) (k : ℚ) (i : ℕ) : ℚ :=
  (lists.map (fun l =>
    match rank_of i l with
    | some r => 1 / (k + (r : ℚ))
    | none => 0)).sum

/-- Claim side (amended): the last-seen record with id `i` across the
concatenated input lists. -/
def last_seen (lists : List (List Doc)) (i : ℕ) : Option Doc :=
  (lists.flatten.reverse).find? (fun d => d.id = i)

/-- Helper for the invariants: total contribution of id `i` in a
processed chunk of the stream. -/
def score_contrib (i : ℕ) : List (ℚ × Doc) → ℚ
  | [] => 0
  | p :: ps => (if p.2.id = i then p.1 else 0) + score_contrib i ps

/-- Helper for the invariants: the last record with id `i` in a chunk of
the stream. -/
def last_doc (i : ℕ) : List (ℚ × Doc) → Option Doc
  | [] => none
  | p :: ps =>
    match last_doc i ps with
    | some d => some d
    | none => if p.2.id = i then some p.2 else none

/-! ## Sparse index cache and hybrid search (`src/core/hybrid.py`) -/

/-- A built `BM25Index`: only the cached document snapshot matters to the
claims; `self.bm25` is `None` exactly when the snapshot is empty. -/
structure BM25Index where
  docs : List Doc
deriving DecidableEq, Repr, Inhabited

/-- `BM25Index.search(query, topk)` (`src/core/hybrid.py`, lines 25-36):
an empty index (`if not self.bm25`) answers `[]`; otherwise the indices
are sorted descending by the BM25 relevance numbers — taken as an oracle
`qscores`, one per document, since `BM25Okapi.get_scores` is an external
capability — truncated to `topk`, and each hit is annotated with its
`bm25_score`. -/
def BM25Index.search (idx : BM25Index) (qscores : List ℚ) (topk : ℕ) : List Doc :=
  if idx.docs.isEmpty then []
  else
    let order := sortDescBy (fun i => qscores.getD i 0) (List.range idx.docs.length)
    (order.take topk).filterMap
      (fun i => (idx.docs.get? i).map (fun d => { d with bm25_score := some (qscores.getD i 0) }))

/-- `int(0.1 * qcount)` from `_get_or_build`: for any realistic count
(below 2^50) the double-precision product `0.1 * qcount` never crosses an
integer boundary, so truncation equals floor division by 10. -/
def stale_threshold (live : ℕ) : ℕ := max 3 (live / 10)

/-- The rebuild test of `_get_or_build` (`src/core/hybrid.py`, line 132):
`qcount > 0 and abs(qcount - count) >= max(3, int(0.1 * qcount))`. -/
def needs_rebuild (cached live : ℕ) : Bool :=
  decide (0 < live) && decide (stale_threshold live ≤ ((live : ℤ) - (cached : ℤ)).natAbs)

/-- A cache slot of `HybridRetriever._cache`: the built index and the
document count recorded at build time (`"count": len(docs)`). -/
structure CacheEntry where
  idx : BM25Index
  count : ℕ
deriving DecidableEq, Repr

/-- Fallible client calls (Python exceptions) as `Except`. -/
abbrev Res (α : Type) := Except String α

/-- `build_bm25_from_qdrant` (`src/core/hybrid.py`, lines 97-121): the
bounded scroll is passed in as its result; the function has no exception
handler, so a failing scroll propagates.  On success the index is built
from the snapshot and cached together with its length. -/
def build_bm25_from_qdrant (scrolled : Res (List Doc)) : Res CacheEntry :=
  match scrolled with
  | .error e => .error e
  | .ok docs => .ok { idx := ⟨docs⟩, count := docs.length }

/-- `_get_or_build` (`src/core/hybrid.py`, lines 123-135): `cached` is
the entry under the `(collection, filter)` key, `live` the count returned
by `_count`, `scrolled` what a rebuild would fetch.  After a successful
build the cache always holds the key, so the `.ok none` shape never
arises; the `Option` mirrors `current["idx"] if current else None`. -/
def get_or_build (cached : Option CacheEntry) (live : ℕ) (scrolled : Res (List Doc)) :
    Res (Option BM25Index) :=
  match cached with
  | none =>
    match build_bm25_from_qdrant scrolled with
    | .error e => .error e
    | .ok e => .ok (some e.idx)
  | some cur =>
    if needs_rebuild cur.count live then
      match build_bm25_from_qdrant scrolled with
      | .error e => .error e
      | .ok e => .ok (some e.idx)
    else .ok (some cur.idx)

/-- The tail of `HybridRetriever.search` (lines 140-143) once the sparse
index lookup has been resolved: a `None` index returns the dense list
unmodified, otherwise the dense and sparse lists are fused. -/
def hybrid_search_with (dense : List Doc) (ob : Option BM25Index)
    (qscores : List ℚ) (topk : ℕ) : List Doc :=
  match ob with
  | none => dense
  | some idx => rrf_fuse [dense, idx.search qscores topk] 60 topk

/-- `HybridRetriever.search` (`src/core/hybrid.py`, lines 137-143). -/
def hybrid_search (dense : List Doc) (cached : Option CacheEntry) (live : ℕ)
    (scrolled : Res (List Doc)) (qscores : List ℚ) (topk : ℕ) : Res (List Doc) :=
  match get_or_build cached live scrolled with
  | .error e => .error e
  | .ok ob => .ok (hybrid_search_with dense ob qscores topk)

/-! ## Template rendering (`src/core/response.py`, lines 9-13) -/

/-- A parsed `str.format` template: literal chunks and `{placeholder}`s. -/
inductive Seg where
  | lit (s : String)
  | ph (key : String)
deriving DecidableEq, Repr

/-- `template.format(**safe)`: substitute placeholders from `safe`,
raising `KeyError` on a placeholder whose key is absent. -/
def pyformat : List Seg → List (String × String) → Res String
  | [], _ => .ok ""
  | .lit s :: rest, safe =>
    match pyformat rest safe with
    | .error e => .error e
    | .ok r => .ok (s ++ r)
  | .ph key :: rest, safe =>
    match alookup key safe with
    | none => .error ("KeyError: " ++ key)
    | some v =>
      match pyformat rest safe with
      | .error e => .error e
      | .ok r => .ok (v ++ r)

/-- The keys `fill_template` calls `safe.setdefault(k, "")` on. -/
def default_keys : List String :=
  ["location", "landmark", "date_time", "attachments", "days_missed",
   "pole_number_optional", "sender_name_optional", "category"]

/-- The `setdefault` loop of `fill_template`. -/
def setdefaults (safe : List (String × String)) : List String → List (String × String)
  | [] => safe
  | key :: ks =>
    setdefaults (if (alookup key safe).isSome then safe else safe ++ [(key, "")]) ks

/-- `fill_template(template, fields)` (`src/core/response.py`, lines
9-13): `None` values become `""`, the defaulted keys are ensured, then
`template.format(**safe)`. -/
def fill_template (tpl : List Seg) (fields : List (String × Option String)) : Res String :=
  pyformat tpl (setdefaults (fields.map (fun p => (p.1, p.2.getD ""))) default_keys)

/-- Claim side: the value substituted for a placeholder — the supplied
value, with null or missing values becoming the empty string. -/
def spec_value (fields : List (String × Option String)) (key : String) : String :=
  match alookup key fields with
  | some (some v) => v
  | some none => ""
  | none => ""

/-- Claim side: the template text with each placeholder replaced by its
(possibly empty) value. -/
def spec_render (fields : List (String × Option String)) : List Seg → String
  | [] => ""
  | .lit s :: rest => s ++ spec_render fields rest
  | .ph key :: rest => spec_value fields key ++ spec_render fields rest

/-- A concrete dense hit used in the concrete instances below. -/
def cexA : Doc := { id := 1, text := "pothole on main road", payload := "A", score := some 1 }

/-- A second concrete hit with the same id but a different payload. -/
def cexB : Doc := { id := 1, text := "pothole on main road", payload := "B", score := some 3 }

/-! ## Lemmas about the fusion loop -/

theorem alookup_eq_none_iff {κ β : Type} [DecidableEq κ] (st : List (κ × β)) (i : κ) :
    alookup i st = none ↔ i ∉ st.map Prod.fst := by
  induction st with
  | nil => simp [alookup]
  | cons a l ih =>
    obtain ⟨j, b⟩ := a
    by_cases h : i = j
    · subst h; simp [alookup]
    · simp [alookup, h, ih]

theorem mem_keys_iff_alookup {κ β : Type} [DecidableEq κ] (st : List (κ × β)) (i : κ) :
    i ∈ st.map Prod.fst ↔ alookup i st ≠ none := by
  rw [Ne, alookup_eq_none_iff, not_not]

theorem alookup_of_mem_nodup {κ β : Type} [DecidableEq κ] (st : List (κ × β))
    (hnd : (st.map Prod.fst).Nodup) (e : κ × β) (he : e ∈ st) :
    alookup e.1 st = some e.2 := by
  induction st with
  | nil => simp at he
  | cons a l ih =>
    rw [List.map_cons] at hnd
    obtain ⟨hh, ht⟩ := List.nodup_cons.mp hnd
    rcases List.mem_cons.mp he with rfl | he2
    · simp [alookup]
    · have hne : e.1 ≠ a.1 := by
        intro h
        exact hh (h ▸ List.mem_map.mpr ⟨e, he2, rfl⟩)
      simp [alookup, hne, ih ht he2]

theorem upd_map_alookup (st : List (ℕ × ℚ × Doc)) (c : ℚ) (d : Doc) (i : ℕ) :
    alookup i (st.map (fun e => if e.1 = d.id then (e.1, e.2.1 + c, d) else e)) =
      if i = d.id then (alookup d.id st).map (fun p => (p.1 + c, d)) else alookup i st := by
  induction st with
  | nil => by_cases hi : i = d.id <;> simp [alookup, hi]
  | cons a l ih =>
    obtain ⟨j, b⟩ := a
    simp only [List.map_cons]
    by_cases hj : j = d.id
    · subst hj
      simp only [if_pos rfl]
      by_cases hi : i = d.id
      · subst hi
        simp [alookup]
      · simp only [alookup, if_neg hi]
        rw [ih, if_neg hi]
    · simp only [if_neg hj]
      by_cases hi : i = j
      · subst hi
        have hid : i ≠ d.id := hj
        simp [alookup, hid]
      · have hdj : d.id ≠ j := fun h => hj h.symm
        simp only [alookup, if_neg hi, if_neg hdj]
        exact ih

theorem upd_app_alookup (st : List (ℕ × ℚ × Doc)) (c : ℚ) (d : Doc) (i : ℕ)
    (hnone : alookup d.id st = none) :
    alookup i (st ++ [(d.id, c, d)]) =
      if i = d.id then some (c, d) else alookup i st := by
  induction st with
  | nil => by_cases hi : i = d.id <;> simp [alookup, hi]
  | cons a l ih =>
    obtain ⟨j, b⟩ := a
    by_cases hdj : d.id = j
    · rw [hdj] at hnone
      simp [alookup] at hnone
    · have hn2 : alookup d.id l = none := by
        simpa [alookup, hdj] using hnone
      by_cases hi : i = j
      · subst hi
        have hid : i ≠ d.id := fun hh => hdj hh.symm
        simp [alookup, hid]
      · simp only [List.cons_append, alookup, if_neg hi]
        exact ih hn2

theorem upd_entries_alookup (st : List (ℕ × ℚ × Doc)) (c : ℚ) (d : Doc) (i : ℕ) :
    alookup i (upd_entries st c d) =
      if i = d.id then
        (match alookup d.id st with
         | some p => some (p.1 + c, d)
         | none => some (c, d))
      else alookup i st := by
  unfold upd_entries
  cases hs : alookup d.id st with
  | some p =>
    simp only [hs, Option.isSome_some, if_true]
    rw [upd_map_alookup, hs]
    rfl
  | none =>
    simp only [hs, Option.isSome_none, Bool.false_eq_true, if_false]
    rw [upd_app_alookup st c d i hs]

theorem run_entries_alookup (ps : List (ℚ × Doc)) :
    ∀ (st : List (ℕ × ℚ × Doc)) (i : ℕ),
      alookup i (run_entries st ps) =
        match alookup i st, last_doc i ps with
        | some p, some dl => some (p.1 + score_contrib i ps, dl)
        | some p, none => some (p.1 + score_contrib i ps, p.2)
        | none, some dl => some (score_contrib i ps, dl)
        | none, none => none := by
  induction ps with
  | nil =>
    intro st i
    simp only [run_entries, score_contrib, last_doc]
    cases alookup i st <;> simp
  | cons q ps ih =>
    intro st i
    obtain ⟨c, d⟩ := q
    simp only [run_entries]
    rw [ih, upd_entries_alookup]
    by_cases hi : i = d.id
    · subst hi
      simp only [if_pos rfl]
      cases hs : alookup d.id st <;> cases hl : last_doc d.id ps <;>
        simp [score_contrib, last_doc, hs, hl, add_assoc]
    · simp only [if_neg hi]
      have hdi : d.id ≠ i := fun h => hi h.symm
      have hld : last_doc i ((c, d) :: ps) = last_doc i ps := by
        simp only [last_doc]
        cases last_doc i ps <;> simp [hdi]
      have hsc : score_contrib i ((c, d) :: ps) = score_contrib i ps := by
        simp [score_contrib, hdi]
      rw [hld, hsc]

theorem upd_entries_keys (st : List (ℕ × ℚ × Doc)) (c : ℚ) (d : Doc) :
    (upd_entries st c d).map Prod.fst =
      if (alookup d.id st).isSome then st.map Prod.fst else st.map Prod.fst ++ [d.id] := by
  unfold upd_entries
  split_ifs with h
  · rw [List.map_map]
    apply List.map_congr_left
    intro e he
    by_cases h2 : e.1 = d.id <;> simp [h2]
  · simp

theorem upd_entries_keys_nodup (st : List (ℕ × ℚ × Doc)) (c : ℚ) (d : Doc)
    (hnd : (st.map Prod.fst).Nodup) :
    ((upd_entries st c d).map Prod.fst).Nodup := by
  rw [upd_entries_keys]
  split_ifs with h
  · exact hnd
  · have : d.id ∉ st.map Prod.fst := by
      rw [← alookup_eq_none_iff]
      exact Option.not_isSome_iff_eq_none.mp h
    simp [List.nodup_append, hnd, this]

theorem run_entries_keys_nodup (ps : List (ℚ × Doc)) :
    ∀ st : List (ℕ × ℚ × Doc), (st.map Prod.fst).Nodup →
      ((run_entries st ps).map Prod.fst).Nodup := by
  induction ps with
  | nil => intro st h; exact h
  | cons q ps ih =>
    intro st h
    obtain ⟨c, d⟩ := q
    exact ih _ (upd_entries_keys_nodup st c d h)

theorem run_entries_fst_eq_id (ps : List (ℚ × Doc)) :
    ∀ st : List (ℕ × ℚ × Doc), (∀ e ∈ st, e.1 = e.2.2.id) →
      ∀ e ∈ run_entries st ps, e.1 = e.2.2.id := by
  induction ps with
  | nil => intro st h; exact h
  | cons q ps ih =>
    intro st h
    obtain ⟨c, d⟩ := q
    apply ih
    intro e he
    unfold upd_entries at he
    split_ifs at he with hs
    · rcases List.mem_map.mp he with ⟨e0, he0, rfl⟩
      by_cases h0 : e0.1 = d.id
      · simp only [if_pos h0]
        exact h0
      · simp only [if_neg h0]
        exact h e0 he0
    · rcases List.mem_append.mp he with he2 | he2
      · exact h e he2
      · simp only [List.mem_singleton] at he2
        subst he2
        rfl

theorem score_contrib_append (i : ℕ) (a b : List (ℚ × Doc)) :
    score_contrib i (a ++ b) = score_contrib i a + score_contrib i b := by
  induction a with
  | nil => simp [score_contrib]
  | cons p ps ih => simp [score_contrib, ih]; ring

theorem find?_append_match {α : Type} (p : α → Bool) (a b : List α) :
    (a ++ b).find? p =
      match a.find? p with
      | some x => some x
      | none => b.find? p := by
  induction a with
  | nil => simp
  | cons x xs ih =>
    by_cases h : p x
    · simp [List.find?_cons, h]
    · simp only [List.cons_append, List.find?_cons]
      simp only [h]
      exact ih

theorem score_contrib_enum_zero (k : ℚ) (i : ℕ) (l : List Doc)
    (h : i ∉ l.map Doc.id) : ∀ n : ℕ,
    score_contrib i ((enumFrom n l).map (fun p => (1 / (k + (p.1 : ℚ)), p.2))) = 0 := by
  induction l with
  | nil => intro n; simp [enumFrom, score_contrib]
  | cons d ds ih =>
    intro n
    simp only [List.map_cons, List.mem_cons, not_or] at h
    have hdi : d.id ≠ i := fun hh => h.1 hh.symm
    have hih := ih h.2 (n + 1)
    simp only [enumFrom, List.map_cons, score_contrib]
    rw [if_neg hdi, hih]
    simp

theorem score_contrib_enum (k : ℚ) (i : ℕ) (l : List Doc)
    (hnd : (l.map Doc.id).Nodup) : ∀ n : ℕ,
    score_contrib i ((enumFrom n l).map (fun p => (1 / (k + (p.1 : ℚ)), p.2)))
      = match rank_of i l with
        | some r => 1 / (k + ((n : ℚ) + (r : ℚ) - 1))
        | none => 0 := by
  induction l with
  | nil => intro n; simp [enumFrom, score_contrib, rank_of]
  | cons d ds ih =>
    intro n
    rw [List.map_cons] at hnd
    obtain ⟨hh, ht⟩ := List.nodup_cons.mp hnd
    by_cases hd : d.id = i
    · have hnotin : i ∉ ds.map Doc.id := hd ▸ hh
      simp only [enumFrom, List.map_cons, score_contrib, rank_of, if_pos hd]
      rw [score_contrib_enum_zero k i ds hnotin (n + 1)]
      push_cast
      ring_nf
    · simp only [enumFrom, List.map_cons, score_contrib, rank_of, if_neg hd]
      rw [ih ht (n + 1)]
      cases hr : rank_of i ds
      · simp
      · simp
        ring_nf

theorem score_contrib_stream (k : ℚ) (i : ℕ) (lists : List (List Doc))
    (hnd : ∀ l ∈ lists, (l.map Doc.id).Nodup) :
    score_contrib i (rrf_stream k lists) = spec_score lists k i := by
  induction lists with
  | nil => simp [rrf_stream, score_contrib, spec_score]
  | cons l ls ih =>
    have h1 := hnd l (by simp)
    have h2 : ∀ l2 ∈ ls, (l2.map Doc.id).Nodup := fun l2 h => hnd l2 (by simp [h])
    simp only [rrf_stream, List.map_cons, List.flatten_cons]
    rw [score_contrib_append, score_contrib_enum k i l h1 1]
    have hrest : ((ls.map (fun l =>
        (enumFrom 1 l).map (fun p => (1 / (k + (p.1 : ℚ)), p.2)))).flatten)
        = rrf_stream k ls := rfl
    rw [hrest, ih h2]
    simp only [spec_score, List.map_cons, List.sum_cons]
    cases rank_of i l with
    | none => simp
    | some r =>
      congr 1
      push_cast
      ring_nf

theorem enum_map_snd (k : ℚ) (l : List Doc) : ∀ n : ℕ,
    ((enumFrom n l).map (fun p => (1 / (k + (p.1 : ℚ)), p.2))).map Prod.snd = l := by
  induction l with
  | nil => intro n; rfl
  | cons d ds ih =>
    intro n
    simp only [enumFrom, List.map_cons]
    rw [ih (n + 1)]

theorem stream_map_snd (k : ℚ) (lists : List (List Doc)) :
    (rrf_stream k lists).map Prod.snd = lists.flatten := by
  induction lists with
  | nil => rfl
  | cons l ls ih =>
    simp only [rrf_stream, List.map_cons, List.flatten_cons, List.map_append]
    rw [enum_map_snd k l 1]
    have hrest : ((ls.map (fun l =>
        (enumFrom 1 l).map (fun p => (1 / (k + (p.1 : ℚ)), p.2)))).flatten)
        = rrf_stream k ls := rfl
    rw [hrest, ih]

theorem last_doc_eq_find (i : ℕ) (ps : List (ℚ × Doc)) :
    last_doc i ps = (ps.map Prod.snd).reverse.find? (fun d => d.id = i) := by
  induction ps with
  | nil => rfl
  | cons p ps ih =>
    simp only [last_doc, List.map_cons, List.reverse_cons]
    rw [find?_append_match, ← ih]
    cases last_doc i ps with
    | none => by_cases hp : p.2.id = i <;> simp [List.find?_cons, hp]
    | some dl => simp [List.find?_cons]

theorem last_doc_stream (k : ℚ) (i : ℕ) (lists : List (List Doc)) :
    last_doc i (rrf_stream k lists) = last_seen lists i := by
  rw [last_doc_eq_find, stream_map_snd]
  rfl

theorem sortDescBy_perm {α : Type} (key : α → ℚ) (l : List α) :
    List.Perm (sortDescBy key l) l :=
  List.perm_insertionSort _ l

theorem sortDescBy_sorted {α : Type} (key : α → ℚ) (l : List α) :
    (sortDescBy key l).Pairwise (fun a b => key b ≤ key a) := by
  haveI : IsTotal α (fun a b => key b ≤ key a) := ⟨fun a b => le_total (key b) (key a)⟩
  haveI : IsTrans α (fun a b => key b ≤ key a) := ⟨fun a b cc h1 h2 => le_trans h2 h1⟩
  exact List.sorted_insertionSort _ l

/-! ## Claims C2, C4, C5, C6, C7, C9 -/

/-- C2: the missing set is exactly the required names, in order, that are
not suffixed `"_optional"` and whose provided value is null or blank; a
non-empty missing set with `auto_submit=false` yields the
information-request outcome carrying those fields and questions, while
`auto_submit=true` proceeds to the final decision regardless. -/
theorem C2_slot_filling_gate :
    (∀ (required : List String) (provided : List (String × Option String)),
        missing_fields required provided = required.filter (spec_missing provided))
    ∧ (∀ (required : List String) (provided : List (String × Option String)),
        missing_fields required provided ≠ [] →
        assist_gate required provided false =
          AssistOutcome.needMoreInfo (missing_fields required provided)
            (questions_for (missing_fields required provided)))
    ∧ (∀ (required : List String) (provided : List (String × Option String)),
        assist_gate required provided true = AssistOutcome.finalDecision) := by
  refine ⟨?_, ?_, ?_⟩
  · intro required provided
    induction required with
    | nil => rfl
    | cons f fs ih =>
      cases h1 : ends_with f "_optional" with
      | true => simp [missing_fields, h1, List.filter_cons, spec_missing, ih]
      | false =>
        cases h2 : dict_get provided f with
        | none => simp [missing_fields, h1, h2, List.filter_cons, spec_missing, ih]
        | some v =>
          cases h3 : is_blank v with
          | true => simp [missing_fields, h1, h2, h3, List.filter_cons, spec_missing, ih]
          | false => simp [missing_fields, h1, h2, h3, List.filter_cons, spec_missing, ih]
  · intro required provided h
    simp [assist_gate, h]
  · intro required provided
    simp [assist_gate]

/-- C2 witness: the spec's own example, `required=["location","photo"]`,
`provided={"location": "", "photo": "yes"}`. -/
theorem C2_slot_filling_gate_witness :
    missing_fields ["location", "photo"] [("location", some ""), ("photo", some "yes")]
      = ["location"]
    ∧ assist_gate ["location", "photo"] [("location", some ""), ("photo", some "yes")] false
      = AssistOutcome.needMoreInfo ["location"]
          ["What is the exact location (street/area) of the issue?"]
    ∧ assist_gate ["location", "photo"] [("location", some ""), ("photo", some "yes")] true
      = AssistOutcome.finalDecision := by
  refine ⟨by decide, ?_, C2_slot_filling_gate.2.2 _ _⟩
  have h2 := C2_slot_filling_gate.2.1 ["location", "photo"]
      [("location", some ""), ("photo", some "yes")] (by decide)
  rw [h2]
  decide

/-- C4: for urgency in {low, medium, high} and a user preference that is
not the (falsy) empty string, the channel score is exactly the claimed
base-plus-penalty-plus-bonus formula; concretely, with
`channels=[portal, helpline]`, urgency high, portal not live, no
preference, helpline scores 2.0, portal scores 0.6 − 2.5 < 0, and
helpline is returned as best. -/
theorem C4_channel_scores :
    (∀ (c urgency : String) (portal_live : Bool) (pref : Option String),
        (urgency = "low" ∨ urgency = "medium" ∨ urgency = "high") →
        pref ≠ some "" →
        score_channel c urgency portal_live pref = spec_channel_score c urgency portal_live pref)
    ∧ score_channel "helpline" "high" false none = 2
    ∧ score_channel "portal" "high" false none = 3/5 - 5/2
    ∧ score_channel "portal" "high" false none < 0
    ∧ (recommend_channel ["portal", "helpline"] "high" false none).best = some "helpline" := by
  refine ⟨?_, ?_, ?_, ?_, ?_⟩
  · intro c urgency portal_live pref hu hp
    have haddif : ∀ (b : ℚ) (q : Prop) (inst : Decidable q),
        (@ite ℚ q inst (b + 3/2) b) = b + (@ite ℚ q inst (3/2) 0) := by
      intro b q inst; split_ifs <;> ring
    have hpen : ∀ b : ℚ, (if c = "portal" ∧ portal_live = false then b - 5/2 else b)
        = b - (if c = "portal" ∧ portal_live = false then (5:ℚ)/2 else 0) := by
      intro b; split_ifs <;> ring
    rcases pref with _ | p0
    · rcases hu with rfl | rfl | rfl <;>
        · simp only [score_channel, spec_channel_score]
          rw [hpen]
          simp
    · have hp0 : p0 ≠ "" := fun h => hp (by rw [h])
      have hiff : (p0 ≠ "" ∧ c = p0) ↔ (some p0 = some c) := by
        constructor
        · rintro ⟨-, rfl⟩; rfl
        · intro h; exact ⟨hp0, (Option.some_inj.mp h).symm⟩
      rcases hu with rfl | rfl | rfl <;>
        · simp only [score_channel, spec_channel_score]
          rw [haddif, hpen, if_congr hiff rfl rfl]
          simp
  · simp [score_channel]
  · simp [score_channel]
  · simp [score_channel]
    norm_num
  · simp [recommend_channel, sortDescBy, List.insertionSort, List.orderedInsert, score_channel]
    norm_num

/-- C4 witness: the general formula applied at the concrete spec example. -/
theorem C4_channel_scores_witness :
    score_channel "portal" "high" false none = spec_channel_score "portal" "high" false none :=
  C4_channel_scores.1 "portal" "high" false none (Or.inr (Or.inr rfl)) (by simp)

/-- C5: `memory_decay_cleanup` deletes a record iff its parsed
`last_updated` makes its age exceed the (defaulted-to-180) TTL; falsy or
unparseable timestamps are skipped, a TTL parse failure behaves as 180;
a 200-day-old record with ttl 180 is deleted, with ttl 365 retained. -/
theorem C5_memory_decay :
    (∀ (now : ℚ) (lu : TsField) (ttl : TtlField),
        should_delete now lu ttl = true ↔
          ∃ ts, lu = TsField.valid ts ∧ (parsed_ttl ttl : ℚ) < now - ts)
    ∧ (∀ (now : ℚ) (ttl : TtlField),
        should_delete now TsField.missing ttl = false
        ∧ should_delete now TsField.invalid ttl = false)
    ∧ (∀ (now ts : ℚ),
        should_delete now (TsField.valid ts) TtlField.invalid
          = should_delete now (TsField.valid ts) (TtlField.valid 180))
    ∧ (∀ (records : List MemRecord) (now : ℚ) (r : MemRecord), r ∈ records →
        should_delete now r.last_updated r.ttl_days = true →
        r.id ∈ memory_decay_cleanup records now)
    ∧ (∀ (records : List MemRecord) (now : ℚ) (i : ℕ),
        i ∈ memory_decay_cleanup records now →
        ∃ r, r ∈ records ∧ r.id = i ∧ should_delete now r.last_updated r.ttl_days = true)
    ∧ should_delete 200 (TsField.valid 0) (TtlField.valid 180) = true
    ∧ should_delete 200 (TsField.valid 0) (TtlField.valid 365) = false := by
  refine ⟨?_, fun now ttl => ⟨rfl, rfl⟩, fun now ts => rfl, ?_, ?_, ?_, ?_⟩
  · intro now lu ttl
    cases lu with
    | missing => simp [should_delete]
    | invalid => simp [should_delete]
    | valid ts =>
      simp only [should_delete, decide_eq_true_eq]
      constructor
      · intro h; exact ⟨ts, rfl, by linarith⟩
      · rintro ⟨ts2, heq, h⟩
        cases heq
        linarith
  · intro records now r hr hd
    simp only [memory_decay_cleanup, List.mem_map, List.mem_filter]
    exact ⟨r, ⟨hr, hd⟩, rfl⟩
  · intro records now i hi
    simp only [memory_decay_cleanup, List.mem_map, List.mem_filter] at hi
    obtain ⟨r, ⟨hr, hd⟩, hid⟩ := hi
    exact ⟨r, hr, hid, hd⟩
  · norm_num [should_delete, parsed_ttl]
  · norm_num [should_delete, parsed_ttl]

/-- C5 witness: a concrete one-record store where the record is deleted. -/
theorem C5_memory_decay_witness :
    (7 : ℕ) ∈ memory_decay_cleanup [⟨7, TsField.valid 0, TtlField.valid 180⟩] 200 :=
  C5_memory_decay.2.2.2.1 [⟨7, TsField.valid 0, TtlField.valid 180⟩] 200
    ⟨7, TsField.valid 0, TtlField.valid 180⟩ (by simp)
    (by norm_num [should_delete, parsed_ttl])

/-- C6: with no record, `reinforce` creates weight 1 bound to the
channel; with a record it increments the weight, overwrites the channel
and refreshes `last_updated`; the helpline-helpline-email sequence ends
at weight 3, channel "email". -/
theorem C6_reinforce_preference :
    (∀ (ch : String) (now : ℚ),
        reinforce_preference none ch now = ⟨ch, 1, now⟩)
    ∧ (∀ (p : PrefRecord) (ch : String) (now : ℚ),
        reinforce_preference (some p) ch now = ⟨ch, p.pref_weight + 1, now⟩)
    ∧ (∀ t1 t2 t3 : ℚ,
        reinforce_preference
          (some (reinforce_preference
            (some (reinforce_preference none "helpline" t1)) "helpline" t2))
          "email" t3 = ⟨"email", 3, t3⟩) :=
  ⟨fun _ _ => rfl, fun _ _ _ => rfl, fun _ _ _ => rfl⟩

/-- C7: the escalation ladder has exactly five steps; step `n` fires at
`min(offset_n, waited + bonus_n)` for offsets `(0, 1, sla, sla+2, sla+5)`
and bonuses `(0, 0, 0, 2, 5)`; `waited_days` defaults to `sla_days`; with
`sla_days = 7` the third step mentions "7 days". -/
theorem C7_escalation_ladder :
    (∀ (sla : ℕ) (w : Option ℕ), (escalation_steps sla w).length = 5)
    ∧ (∀ (sla w : ℕ), escalation_steps sla (some w)
        = List.zipWith mkStep (escalation_days sla w) (step_texts sla))
    ∧ (∀ sla : ℕ, escalation_steps sla none = escalation_steps sla (some sla))
    ∧ (∀ (sla w : ℕ), escalation_days sla w =
        [min 0 (w + 0), min 1 (w + 0), min sla (w + 0),
         min (sla + 2) (w + 2), min (sla + 5) (w + 5)])
    ∧ (escalation_steps 7 none)[2]? =
        some "Day 7: If no resolution within SLA (7 days), escalate to ward/zone officer."
    ∧ contains_seq "7 days".data
        "Day 7: If no resolution within SLA (7 days), escalate to ward/zone officer.".data
        = true := by
  refine ⟨fun sla w => rfl, fun sla w => rfl, fun sla => rfl, fun sla w => ?_, ?_, by decide⟩
  · simp [escalation_days]
  · rfl

/-- C9: the confidence label mapping on the top evidence score. -/
theorem C9_confidence_mapping :
    confidence_from_score none = "low"
    ∧ (∀ s : ℚ, 35/100 ≤ s → confidence_from_score (some s) = "high")
    ∧ (∀ s : ℚ, 25/100 ≤ s → s < 35/100 → confidence_from_score (some s) = "medium")
    ∧ (∀ s : ℚ, s < 25/100 → confidence_from_score (some s) = "low") := by
  refine ⟨rfl, fun s h => ?_, fun s h1 h2 => ?_, fun s h => ?_⟩
  · simp [confidence_from_score, ge_iff_le, h]
  · have h35 : ¬ ((35:ℚ)/100 ≤ s) := not_le.mpr h2
    simp [confidence_from_score, ge_iff_le, h1, h35]
  · have h35 : ¬ ((35:ℚ)/100 ≤ s) := not_le.mpr (by linarith)
    have h25 : ¬ ((25:ℚ)/100 ≤ s) := not_le.mpr h
    simp [confidence_from_score, ge_iff_le, h25, h35]

/-- C9 witness: the three bands at concrete scores. -/
theorem C9_confidence_mapping_witness :
    confidence_from_score (some (2/5)) = "high"
    ∧ confidence_from_score (some (3/10)) = "medium"
    ∧ confidence_from_score (some (1/10)) = "low" :=
  ⟨C9_confidence_mapping.2.1 (2/5) (by norm_num),
   C9_confidence_mapping.2.2.1 (3/10) (by norm_num) (by norm_num),
   C9_confidence_mapping.2.2.2 (1/10) (by norm_num)⟩

/-! ## Claim C1 -/

/-- C1 (amended): under distinct ids per input list, `rrf_fuse` returns
the `topk` prefix of a list that holds, for each id occurring in any
input list, exactly one record — the last-seen record for that id, with
the fused score `Σ 1/(k + rank)` recorded in the `rrf_score` field —
sorted descending (stably) by fused score. -/
theorem C1_rrf_fuse_amended :
    ∀ (lists : List (List Doc)) (k : ℚ) (topk : ℕ),
      (∀ l ∈ lists, (l.map Doc.id).Nodup) →
      ∃ full : List Doc,
        rrf_fuse lists k topk = full.take topk
        ∧ full.Pairwise (fun a b => rrf_key b ≤ rrf_key a)
        ∧ (full.map Doc.id).Nodup
        ∧ (∀ i : ℕ, i ∈ full.map Doc.id ↔ i ∈ lists.flatten.map Doc.id)
        ∧ (∀ d ∈ full, ∃ d0, last_seen lists d.id = some d0
              ∧ d = { d0 with rrf_score := some (spec_score lists k d.id) }) := by
  intro lists k topk hnd
  have hperm := sortDescBy_perm rrf_key ((run_entries [] (rrf_stream k lists)).map fused_of_entry)
  have hkeysnd : ((run_entries [] (rrf_stream k lists)).map Prod.fst).Nodup :=
    run_entries_keys_nodup _ [] (by simp)
  have hfst : ∀ e ∈ run_entries [] (rrf_stream k lists), e.1 = e.2.2.id :=
    run_entries_fst_eq_id _ [] (by simp)
  have hids : ((run_entries [] (rrf_stream k lists)).map fused_of_entry).map Doc.id
      = (run_entries [] (rrf_stream k lists)).map Prod.fst := by
    rw [List.map_map]
    apply List.map_congr_left
    intro e he
    have : (fused_of_entry e).id = e.1 := by
      simp only [fused_of_entry]
      exact (hfst e he).symm
    exact this
  refine ⟨sortDescBy rrf_key ((run_entries [] (rrf_stream k lists)).map fused_of_entry),
    rfl, sortDescBy_sorted _ _, ?_, ?_, ?_⟩
  · have hmapped := hperm.map Doc.id
    rw [hids] at hmapped
    exact hmapped.nodup_iff.mpr hkeysnd
  · intro i
    have hmapped := hperm.map Doc.id
    rw [hids] at hmapped
    rw [hmapped.mem_iff, mem_keys_iff_alookup, run_entries_alookup]
    simp only [alookup]
    rw [last_doc_stream]
    simp only [last_seen]
    cases hls : (lists.flatten.reverse).find? (fun d => d.id = i) with
    | none =>
      simp only
      constructor
      · intro hcontra; exact absurd rfl hcontra
      · intro hmem
        exfalso
        rcases List.mem_map.mp hmem with ⟨d0, hd0, hid0⟩
        have hforall := List.find?_eq_none.mp hls d0 (List.mem_reverse.mpr hd0)
        exact hforall (by simp [hid0])
    | some d0 =>
      have hps := List.find?_some hls
      have hpd0 : d0.id = i := by simpa using hps
      have hd0mem : d0 ∈ lists.flatten := List.mem_reverse.mp (List.mem_of_find?_eq_some hls)
      simp only
      constructor
      · intro _
        exact List.mem_map.mpr ⟨d0, hd0mem, hpd0⟩
      · intro _
        simp
  · intro d hd
    have hdmem : d ∈ (run_entries [] (rrf_stream k lists)).map fused_of_entry :=
      (hperm.mem_iff).mp hd
    rcases List.mem_map.mp hdmem with ⟨e, he, rfl⟩
    have hlk := alookup_of_mem_nodup _ hkeysnd e he
    rw [run_entries_alookup] at hlk
    simp only [alookup] at hlk
    cases hld : last_doc e.1 (rrf_stream k lists) with
    | none => rw [hld] at hlk; simp at hlk
    | some dl =>
      rw [hld] at hlk
      simp only at hlk
      have hpair : (score_contrib e.1 (rrf_stream k lists), dl) = e.2 := Option.some.inj hlk
      have hsc : score_contrib e.1 (rrf_stream k lists) = e.2.1 := congrArg Prod.fst hpair
      have hdl : dl = e.2.2 := congrArg Prod.snd hpair
      have hid : (fused_of_entry e).id = e.1 := by
        simp only [fused_of_entry]
        exact (hfst e he).symm
      refine ⟨dl, ?_, ?_⟩
      · rw [hid, ← last_doc_stream k e.1 lists, hld]
      · rw [hid, ← score_contrib_stream k e.1 lists hnd, hsc, hdl]
        rfl

/-- C1 counterexample to the claim as stated: fusing `[[cexA], [cexB]]`
(same id, payloads "A" then "B", dense scores 1 and 3) produces the
LAST-seen record (payload "B"), whose `score` field still holds the
original 3 while the fused score 2/61 sits in the separate `rrf_score`
field — not the first-seen payload with an overwritten score field. -/
theorem C1_rrf_fuse_counterexample :
    rrf_fuse [[cexA], [cexB]] 60 10
      = [{ id := 1, text := "pothole on main road", payload := "B",
           score := some 3, bm25_score := none, rrf_score := some (2/61) }]
    ∧ cexA.payload = "A" ∧ cexB.payload = "B" ∧ ("B" : String) ≠ "A"
    ∧ ({ id := 1, text := "pothole on main road", payload := "B",
         score := some 3, bm25_score := none, rrf_score := some (2/61)} : Doc).score = some 3
    ∧ (3 : ℚ) ≠ 2/61
    ∧ spec_score [[cexA], [cexB]] 60 1 = 2/61 := by
  refine ⟨?_, rfl, rfl, by decide, rfl, by norm_num, ?_⟩
  · simp [rrf_fuse, rrf_stream, enumFrom, run_entries, upd_entries, alookup,
      fused_of_entry, sortDescBy, List.insertionSort, List.orderedInsert, cexA, cexB, rrf_key]
    norm_num
  · simp [spec_score, rank_of, cexA, cexB]
    norm_num

/-- C1 witness: the amended theorem applied at the concrete input. -/
theorem C1_rrf_fuse_amended_witness :
    ∃ full : List Doc,
      rrf_fuse [[cexA], [cexB]] 60 10 = full.take 10
      ∧ full.Pairwise (fun a b => rrf_key b ≤ rrf_key a)
      ∧ (full.map Doc.id).Nodup
      ∧ (∀ i : ℕ, i ∈ full.map Doc.id ↔
          i ∈ ([[cexA], [cexB]] : List (List Doc)).flatten.map Doc.id)
      ∧ (∀ d ∈ full, ∃ d0, last_seen [[cexA], [cexB]] d.id = some d0
            ∧ d = { d0 with rrf_score := some (spec_score [[cexA], [cexB]] 60 d.id) }) :=
  C1_rrf_fuse_amended [[cexA], [cexB]] 60 10 (by decide)

/-! ## Claim C3 -/

/-- C3 (amended): with a cached entry under the key, the index is rebuilt
before answering iff the live count is positive AND the drift
`|live − cached|` reaches `max(3, ⌊0.1·live⌋)` (integer truncation, not
rounding); otherwise the cached snapshot is used unchanged. -/
theorem C3_stale_rebuild :
    (∀ (cur : CacheEntry) (live : ℕ) (docs : List Doc),
        0 < live →
        stale_threshold live ≤ ((live : ℤ) - (cur.count : ℤ)).natAbs →
        get_or_build (some cur) live (.ok docs) = .ok (some ⟨docs⟩))
    ∧ (∀ (cur : CacheEntry) (live : ℕ) (scrolled : Res (List Doc)),
        ¬(0 < live ∧ stale_threshold live ≤ ((live : ℤ) - (cur.count : ℤ)).natAbs) →
        get_or_build (some cur) live scrolled = .ok (some cur.idx))
    ∧ (∀ live : ℕ, stale_threshold live = max 3 (Nat.floor ((live : ℚ) / 10))) := by
  refine ⟨?_, ?_, ?_⟩
  · intro cur live docs h1 h2
    have hb : needs_rebuild cur.count live = true := by
      simp [needs_rebuild, h1, h2]
    simp [get_or_build, hb, build_bm25_from_qdrant]
  · intro cur live scrolled h
    have hb : needs_rebuild cur.count live = false := by
      cases hnb : needs_rebuild cur.count live
      · rfl
      · exfalso
        apply h
        simpa [needs_rebuild] using hnb
    simp [get_or_build, hb]
  · intro live
    have h := Nat.floor_div_nat ((live : ℚ)) 10
    push_cast at h
    rw [stale_threshold, h, Nat.floor_natCast]

/-- C3 counterexample to the claim as stated: at live count 35 with
cached count 32 the drift is 3, strictly below the claimed threshold
`max(3, round(0.1·35)) = 4`, yet the code rebuilds (it truncates
`int(3.5) = 3`), replacing the cached snapshot. -/
theorem C3_stale_rebuild_counterexample :
    get_or_build (some { idx := ⟨[]⟩, count := 32 }) 35 (.ok [cexA]) = .ok (some ⟨[cexA]⟩)
    ∧ (BM25Index.mk [cexA]) ≠ ⟨[]⟩
    ∧ ((((35 : ℤ) - 32).natAbs : ℤ) < max 3 (round ((1 : ℚ)/10 * 35))) := by
  refine ⟨?_, by simp, ?_⟩
  · have hb : needs_rebuild 32 35 = true := by decide
    simp [get_or_build, hb, build_bm25_from_qdrant]
  · have h4 : round ((1 : ℚ)/10 * 35) = 4 := by
      rw [round_eq]
      norm_num
    rw [h4]
    decide

/-- C3 witness: one rebuilding drift and one within-threshold drift. -/
theorem C3_stale_rebuild_witness :
    get_or_build (some { idx := ⟨[]⟩, count := 10 }) 20 (.ok [cexA]) = .ok (some ⟨[cexA]⟩)
    ∧ get_or_build (some { idx := ⟨[]⟩, count := 11 }) 12 (.ok [cexA])
        = .ok (some (⟨[]⟩ : BM25Index)) :=
  ⟨C3_stale_rebuild.1 ⟨⟨[]⟩, 10⟩ 20 [cexA] (by decide) (by decide),
   C3_stale_rebuild.2.1 ⟨⟨[]⟩, 11⟩ 12 (.ok [cexA]) (by decide)⟩

/-! ## Claim C8 -/

/-- C8 (amended): a `None` sparse index makes hybrid search return the
dense list unmodified, and an empty snapshot makes the sparse search
return `[]`; but an unreachable backend (failing scroll) propagates the
error out of hybrid search — both when there is no cached entry and when
a stale one forces a rebuild — instead of degrading. -/
theorem C8_degraded_search :
    (∀ (dense : List Doc) (qscores : List ℚ) (topk : ℕ),
        hybrid_search_with dense none qscores topk = dense)
    ∧ (∀ (qscores : List ℚ) (topk : ℕ), BM25Index.search ⟨[]⟩ qscores topk = [])
    ∧ (∀ (dense : List Doc) (live : ℕ) (e : String) (qscores : List ℚ) (topk : ℕ),
        hybrid_search dense none live (.error e) qscores topk = .error e)
    ∧ (∀ (dense : List Doc) (cur : CacheEntry) (live : ℕ) (e : String)
        (qscores : List ℚ) (topk : ℕ),
        needs_rebuild cur.count live = true →
        hybrid_search dense (some cur) live (.error e) qscores topk = .error e) := by
  refine ⟨fun _ _ _ => rfl, fun _ _ => rfl, fun _ _ _ _ _ => rfl, ?_⟩
  intro dense cur live e qscores topk hb
  simp [hybrid_search, get_or_build, hb, build_bm25_from_qdrant]

/-- C8 counterexample to the claim as stated: with no cached index and an
unreachable backend, hybrid search raises the scroll error to the caller
— it returns neither an empty sparse result nor the dense list. -/
theorem C8_degraded_search_counterexample :
    hybrid_search [cexA] none 0 (.error "connection refused") [] 10
      = .error "connection refused"
    ∧ (Except.error "connection refused" : Res (List Doc)) ≠ .ok []
    ∧ (Except.error "connection refused" : Res (List Doc)) ≠ .ok [cexA] := by
  refine ⟨rfl, by simp, by simp⟩

/-- C8 witness: error propagation through a forced rebuild. -/
theorem C8_degraded_search_witness :
    hybrid_search [cexA] (some { idx := ⟨[]⟩, count := 0 }) 50 (.error "backend down") [] 10
      = .error "backend down" :=
  C8_degraded_search.2.2.2 [cexA] ⟨⟨[]⟩, 0⟩ 50 "backend down" [] 10 (by decide)

/-! ## Claim C10 -/

theorem alookup_append_single (safe : List (String × String)) (k0 key : String) :
    alookup key (safe ++ [(k0, "")]) =
      match alookup key safe with
      | some v => some v
      | none => if key = k0 then some "" else none := by
  induction safe with
  | nil => simp [alookup]
  | cons a l ih =>
    obtain ⟨j, v⟩ := a
    by_cases h : key = j <;> simp [alookup, h, ih]

theorem alookup_setdefaults (ks : List String) :
    ∀ (safe : List (String × String)) (key : String),
      alookup key (setdefaults safe ks) =
        match alookup key safe with
        | some v => some v
        | none => if key ∈ ks then some "" else none := by
  induction ks with
  | nil =>
    intro safe key
    simp only [setdefaults]
    cases alookup key safe <;> simp
  | cons k0 ks ih =>
    intro safe key
    simp only [setdefaults]
    rw [ih]
    by_cases hs : (alookup k0 safe).isSome
    · simp only [if_pos hs]
      cases hk : alookup key safe with
      | none =>
        by_cases hk0 : key = k0
        · exfalso
          rw [hk0] at hk
          rw [hk] at hs
          simp at hs
        · simp [hk, List.mem_cons, hk0]
      | some v => simp [hk]
    · simp only [if_neg hs]
      rw [alookup_append_single]
      cases hk : alookup key safe with
      | none =>
        by_cases hk0 : key = k0 <;> simp [hk0, List.mem_cons]
      | some v => simp

theorem alookup_strip (fields : List (String × Option String)) (key : String) :
    alookup key (fields.map (fun p => (p.1, p.2.getD ""))) =
      (alookup key fields).map (fun v => v.getD "") := by
  induction fields with
  | nil => simp [alookup]
  | cons a l ih =>
    obtain ⟨j, v⟩ := a
    by_cases h : key = j <;> simp [alookup, h, ih]

/-- C10 (amended): rendering never raises — substituting the empty string
for placeholders whose value is null or whose key is only defaulted —
provided every placeholder of the template is a supplied field or one of
the eight defaulted keys; a placeholder outside both raises `KeyError`. -/
theorem C10_fill_template :
    (∀ (tpl : List Seg) (fields : List (String × Option String)),
        (∀ key, Seg.ph key ∈ tpl → key ∈ default_keys ∨ (alookup key fields).isSome) →
        fill_template tpl fields = .ok (spec_render fields tpl))
    ∧ (∀ (fields : List (String × Option String)) (key : String),
        alookup key fields = some none ∨ alookup key fields = none →
        spec_value fields key = "") := by
  constructor
  · intro tpl fields hcov
    induction tpl with
    | nil => rfl
    | cons sg rest ih =>
      have hrest : ∀ key, Seg.ph key ∈ rest → key ∈ default_keys ∨ (alookup key fields).isSome :=
        fun key hk => hcov key (List.mem_cons_of_mem _ hk)
      have hok := ih hrest
      unfold fill_template at hok ⊢
      cases sg with
      | lit s =>
        simp only [pyformat, spec_render]
        rw [hok]
      | ph key =>
        simp only [pyformat, spec_render]
        have hval : alookup key
            (setdefaults (fields.map (fun p => (p.1, p.2.getD ""))) default_keys)
            = some (spec_value fields key) := by
          rw [alookup_setdefaults, alookup_strip]
          rcases hcov key (List.mem_cons_self _ _) with hdef | hsome
          · cases hf : alookup key fields with
            | none => simp [spec_value, hf, hdef]
            | some v => cases v <;> simp [spec_value, hf]
          · cases hf : alookup key fields with
            | none =>
              rw [hf] at hsome
              simp at hsome
            | some v => cases v <;> simp [spec_value, hf]
        rw [hval, hok]
  · intro fields key h
    rcases h with h | h <;> simp [spec_value, h]

/-- C10 counterexample to the claim as stated: a template whose
placeholder is outside the supplied fields and the defaulted keys raises
`KeyError` instead of substituting an empty string. -/
theorem C10_fill_template_counterexample :
    fill_template [Seg.ph "foo"] [] = .error "KeyError: foo"
    ∧ (Except.error "KeyError: foo" : Res String) ≠ .ok "" := by
  refine ⟨rfl, by simp⟩

/-- C10 witness: the no-raise theorem at a template with a supplied field
and a defaulted optional placeholder with no value. -/
theorem C10_fill_template_witness :
    fill_template [Seg.ph "location", Seg.lit " - ", Seg.ph "pole_number_optional"]
        [("location", some "Ward 3"), ("pole_number_optional", none)]
      = .ok (spec_render [("location", some "Ward 3"), ("pole_number_optional", none)]
          [Seg.ph "location", Seg.lit " - ", Seg.ph "pole_number_optional"]) :=
  C10_fill_template.1 _ _ (by
    intro key hk
    simp only [List.mem_cons, List.not_mem_nil, or_false] at hk
    rcases hk with h | h | h
    · right
      injection h with h2
      subst h2
      decide
    · exact Seg.noConfusion h
    · left
      injection h with h2
      subst h2
      decide)

end Civic
